import Mathlib

/-!
Shallow embedding of the Neon Tycoon economy core (src/core_logic.cpp,
namespace NeonTycoon). C++ `double` values (money, costs, income rates,
multipliers) are embedded as exact rationals `ℚ`; `int` / `long long`
values as `ℤ`. `std::map<std::string, bool> ownedSkills` is embedded as
the function `String → Bool` it computes (an absent key reads as `false`,
exactly as `operator[]` default-construction and the `find` check in
`hasSkill` behave). Fallible actions (`buyBuilding`, `buySkill`)
return their `bool` result paired with the post-state.
-/

namespace NeonTycoon

/-- `PRICE_GROWTH_RATE = 1.15` from src/core_logic.cpp. -/
def PRICE_GROWTH_RATE : ℚ := 1.15

/-- `DISCOUNT_RATE = 0.9` from src/core_logic.cpp. -/
def DISCOUNT_RATE : ℚ := 0.9

/-- `AUTO_CLICK_BONUS = 0.05` from src/core_logic.cpp. -/
def AUTO_CLICK_BONUS : ℚ := 0.05

/-- `struct BuildingDef` from src/core_logic.cpp. -/
structure BuildingDef where
  id : Int
  name : String
  baseCost : ℚ
  income : ℚ
  icon : String
  deriving DecidableEq, Inhabited

/-- `struct SkillDef` from src/core_logic.cpp. -/
structure SkillDef where
  id : String
  name : String
  cost : Int
  description : String
  deriving DecidableEq, Inhabited

/-- `GameData::getBuildings()`: the static building catalog. -/
def getBuildings : List BuildingDef :=
  [⟨0, "Data Miner", 15, 1, "💾"⟩,
   ⟨1, "Bot Network", 100, 5, "🤖"⟩,
   ⟨2, "Server Rack", 1100, 22, "🔋"⟩,
   ⟨3, "AI Cluster", 12000, 85, "🧠"⟩,
   ⟨4, "Quantum Core", 130000, 350, "⚛️"⟩,
   ⟨5, "Dyson Swarm", 1500000, 1500, "☀️"⟩,
   ⟨6, "Reality Engine", 25000000, 8000, "🌀"⟩]

/-- `GameData::getSkills()`: the static skill catalog. -/
def getSkills : List SkillDef :=
  [⟨"auto_click", "Auto-Clicker", 5, "Automatic clicks 1x/sec"⟩,
   ⟨"cheaper", "Optimization", 10, "Buildings are 10% cheaper"⟩,
   ⟨"offline", "Deep Sleep", 15, "Offline earnings x2"⟩,
   ⟨"hack_freq", "Backdoor", 25, "Hacks appear more frequently"⟩]

/-- The mutable fields of `class GameEngine` (the wall-clock bookkeeping
fields `startTime` / `lastSaveTime` are omitted: they feed no formula). -/
structure GameEngine where
  money : ℚ
  neuralData : Int
  buildingCounts : List Int
  ownedSkills : String → Bool
  totalClicks : Int
  totalEarnings : ℚ
  incomeMultiplier : ℚ
  globalIncomePerSec : ℚ

/-- `GameEngine::GameEngine()`. The init-list of the C++ constructor sets every
field except `globalIncomePerSec`, which is read before ever being written
when `click()` precedes the first `update()`; its indeterminate initial
value is therefore a parameter of the embedding. -/
def mkEngine (uninitIncomePerSec : ℚ) : GameEngine :=
  { money := 0
    neuralData := 0
    buildingCounts := List.replicate getBuildings.length 0
    ownedSkills := fun _ => false
    totalClicks := 0
    totalEarnings := 0
    incomeMultiplier := 1
    globalIncomePerSec := uninitIncomePerSec }

/-- `GameEngine::hasSkill`. -/
def hasSkill (g : GameEngine) (skillId : String) : Bool :=
  g.ownedSkills skillId

/-- The accumulation loop of `GameEngine::calculateIncomePerSec`: it walks
the catalog and adds `db[i].income * buildingCounts[i]` for every index
that is also in range for `buildingCounts`. -/
def incomeSum : List BuildingDef → List Int → ℚ
  | b :: bs, c :: cs => b.income * (c : ℚ) + incomeSum bs cs
  | _, _ => 0

/-- `GameEngine::calculateIncomePerSec`. -/
def calculateIncomePerSec (g : GameEngine) : GameEngine :=
  let baseIncome := incomeSum getBuildings g.buildingCounts
  let baseIncome :=
    if hasSkill g "auto_click" then baseIncome + baseIncome * AUTO_CLICK_BONUS
    else baseIncome
  { g with globalIncomePerSec := baseIncome * g.incomeMultiplier }

/-- `GameEngine::addMoney`. -/
def addMoney (g : GameEngine) (amount : ℚ) : GameEngine :=
  { g with money := g.money + amount, totalEarnings := g.totalEarnings + amount }

/-- `GameEngine::update`. -/
def update (g : GameEngine) (deltaTime : ℚ) : GameEngine :=
  let g' := calculateIncomePerSec g
  if 0 < g'.globalIncomePerSec then addMoney g' (g'.globalIncomePerSec * deltaTime)
  else g'

/-- `GameEngine::click`. -/
def click (g : GameEngine) : GameEngine :=
  let g' := { g with totalClicks := g.totalClicks + 1 }
  let clickValue : ℚ := 1 + g.globalIncomePerSec * 0.05
  addMoney g' clickValue

/-- `GameEngine::getBuildingCost`. The C++ indexes `getBuildings()` and
`buildingCounts` with no bounds check (valid ids are a caller
precondition); the embedding totalises the two lookups with defaults. -/
def getBuildingCost (g : GameEngine) (buildingId : Nat) : ℚ :=
  let b := (getBuildings.get? buildingId).getD default
  let growth : ℚ := PRICE_GROWTH_RATE ^ ((g.buildingCounts.get? buildingId).getD 0)
  let discount : ℚ := if hasSkill g "cheaper" then DISCOUNT_RATE else 1
  (⌊b.baseCost * growth * discount⌋ : ℚ)

/-- `GameEngine::buyBuilding`. -/
def buyBuilding (g : GameEngine) (buildingId : Int) : Bool × GameEngine :=
  if buildingId < 0 ∨ (getBuildings.length : Int) ≤ buildingId then (false, g)
  else
    let cost := getBuildingCost g buildingId.toNat
    if cost ≤ g.money then
      (true, { g with
                money := g.money - cost
                buildingCounts := g.buildingCounts.set buildingId.toNat
                  ((g.buildingCounts.get? buildingId.toNat).getD 0 + 1) })
    else (false, g)

/-- The skill-catalog scan of `GameEngine::buySkill`: the first entry whose
id matches and whose cost is covered by `neuralData` is bought; a matching
but unaffordable entry does not stop the scan. -/
def buySkillAux (g : GameEngine) (skillId : String) : List SkillDef → Bool × GameEngine
  | [] => (false, g)
  | skill :: rest =>
    if skill.id = skillId then
      if skill.cost ≤ g.neuralData then
        (true, { g with
                  neuralData := g.neuralData - skill.cost
                  ownedSkills := fun s => if s = skillId then true else g.ownedSkills s })
      else buySkillAux g skillId rest
    else buySkillAux g skillId rest

/-- `GameEngine::buySkill`. -/
def buySkill (g : GameEngine) (skillId : String) : Bool × GameEngine :=
  if g.ownedSkills skillId then (false, g)
  else buySkillAux g skillId getSkills

/-- `GameEngine::calculatePrestigePotential`. The C++ computes
`(long long) std::floor(std::sqrt(money / 1000000))`; over `ℚ` this is
`Nat.sqrt` of the floored quotient (theorem `prestigePotential_spec`
proves the agreement with `⌊Real.sqrt _⌋`). -/
def calculatePrestigePotential (g : GameEngine) : Int :=
  if g.money < 1000000 then 0
  else (Nat.sqrt (⌊g.money / 1000000⌋).toNat : Int)

/-- `GameEngine::doPrestige`. -/
def doPrestige (g : GameEngine) : GameEngine :=
  let potential := calculatePrestigePotential g
  if 0 < potential then
    { g with
       neuralData := g.neuralData + potential
       money := 0
       buildingCounts := g.buildingCounts.map (fun _ => 0)
       incomeMultiplier := 1 }
  else g

/-- `GameEngine::getMoney`. -/
def getMoney (g : GameEngine) : ℚ := g.money

/-- `GameEngine::getIncomePerSec`. -/
def getIncomePerSec (g : GameEngine) : ℚ := g.globalIncomePerSec

/-- `GameEngine::getNeuralData`. -/
def getNeuralData (g : GameEngine) : Int := g.neuralData

/-- A concrete engine state used to instantiate witnesses: the
freshly-constructed state with the cached income rate read as `0`. -/
def baseEngine : GameEngine := mkEngine 0

/-! ### Helper lemmas -/

lemma nat_sqrt_two : Nat.sqrt 2 = 1 :=
  (Nat.eq_sqrt.mpr (by norm_num)).symm

lemma potential_of_money_lt {g : GameEngine} (h : g.money < 1000000) :
    calculatePrestigePotential g = 0 := by
  simp [calculatePrestigePotential, h]

lemma potential_of_money_2M {g : GameEngine} (h : g.money = 2000000) :
    calculatePrestigePotential g = 1 := by
  rw [calculatePrestigePotential, if_neg (by rw [h]; norm_num)]
  have hfl : ⌊g.money / 1000000⌋ = 2 := by
    rw [h]
    norm_num
  rw [hfl]
  show ((Nat.sqrt 2 : ℕ) : ℤ) = 1
  rw [nat_sqrt_two]
  norm_num

lemma baseEngine_money : baseEngine.money = 0 := rfl

/-- The integer square root of the floor computes the floor of the real
square root, for a non-negative rational radicand. -/
lemma floor_real_sqrt_ratCast (q : ℚ) (hq : 0 ≤ q) :
    ⌊Real.sqrt (q : ℝ)⌋ = (Nat.sqrt (⌊q⌋).toNat : ℤ) := by
  set n : ℕ := (⌊q⌋).toNat with hn
  have hfl : ((n : ℤ) : ℚ) = (⌊q⌋ : ℚ) := by
    rw [hn, Int.toNat_of_nonneg (Int.floor_nonneg.mpr hq)]
  have h1 : ((n : ℝ)) ≤ (q : ℝ) := by
    have h := Int.floor_le q
    rw [← hfl] at h
    exact_mod_cast (Rat.cast_le (K := ℝ)).mpr h
  have h2 : (q : ℝ) < (n : ℝ) + 1 := by
    have h := Int.lt_floor_add_one q
    rw [← hfl] at h
    exact_mod_cast (Rat.cast_lt (K := ℝ)).mpr h
  have low : ((Nat.sqrt n : ℝ)) ≤ Real.sqrt (q : ℝ) :=
    le_trans Real.nat_sqrt_le_real_sqrt (Real.sqrt_le_sqrt h1)
  have hsucc : ((n : ℝ)) + 1 ≤ ((Nat.sqrt n : ℝ) + 1) ^ 2 := by
    have h := Nat.succ_le_succ_sqrt' n
    exact_mod_cast h
  have high : Real.sqrt (q : ℝ) < (Nat.sqrt n : ℝ) + 1 :=
    (Real.sqrt_lt' (by positivity)).mpr (lt_of_lt_of_le h2 hsucc)
  refine Int.floor_eq_iff.mpr ⟨?_, ?_⟩
  · exact_mod_cast low
  · push_cast
    exact high

/-! ### Claims -/

/-- Claim C2: `calculatePrestigePotential()` returns `0` when
`money < 1,000,000` and otherwise returns `⌊√(money / 1,000,000)⌋`;
in particular, with `money = 2,000,000` it returns `⌊√2⌋ = 1`. -/
theorem prestigePotential_spec :
    (∀ g : GameEngine,
       (g.money < 1000000 → calculatePrestigePotential g = 0) ∧
       (1000000 ≤ g.money →
          calculatePrestigePotential g = ⌊Real.sqrt ((g.money : ℝ) / 1000000)⌋)) ∧
    (∀ g : GameEngine, g.money = 2000000 → calculatePrestigePotential g = 1) := by
  constructor
  · intro g
    constructor
    · intro h
      exact potential_of_money_lt h
    · intro h
      have hnlt : ¬ g.money < 1000000 := not_lt.mpr h
      have hq : (0 : ℚ) ≤ g.money / 1000000 := by
        apply div_nonneg _ (by norm_num)
        linarith
      have hcast : ((g.money / 1000000 : ℚ) : ℝ) = (g.money : ℝ) / 1000000 := by
        push_cast
        ring
      rw [calculatePrestigePotential, if_neg hnlt, ← hcast,
        floor_real_sqrt_ratCast _ hq]
  · intro g h
    exact potential_of_money_2M h

/-- Claim C2 witness: the two branches instantiated at the concrete
states with `money = 5` and `money = 2,000,000`. -/
theorem prestigePotential_spec_witness :
    calculatePrestigePotential { baseEngine with money := 5 } = 0 ∧
    calculatePrestigePotential { baseEngine with money := 2000000 } = 1 :=
  ⟨(prestigePotential_spec.1 _).1 (by norm_num),
   prestigePotential_spec.2 _ rfl⟩

/-- Claim C1: if `calculatePrestigePotential()` is positive, `doPrestige()`
adds exactly that potential to `neuralData`, zeroes `money` and every
`buildingCounts` entry, resets `incomeMultiplier` to `1`, and keeps every
previously owned skill owned; if the potential is `0`, `doPrestige()`
leaves the state unchanged. -/
theorem doPrestige_spec (g : GameEngine) :
    (0 < calculatePrestigePotential g →
       (doPrestige g).neuralData = g.neuralData + calculatePrestigePotential g ∧
       (doPrestige g).money = 0 ∧
       (∀ c ∈ (doPrestige g).buildingCounts, c = 0) ∧
       (doPrestige g).incomeMultiplier = 1 ∧
       (∀ s, hasSkill g s = true → hasSkill (doPrestige g) s = true)) ∧
    (calculatePrestigePotential g = 0 → doPrestige g = g) := by
  constructor
  · intro hp
    have hd : doPrestige g =
        { g with
           neuralData := g.neuralData + calculatePrestigePotential g
           money := 0
           buildingCounts := g.buildingCounts.map (fun _ => 0)
           incomeMultiplier := 1 } := by
      rw [doPrestige, if_pos hp]
    rw [hd]
    refine ⟨rfl, rfl, ?_, rfl, ?_⟩
    · intro c hc
      rcases List.mem_map.mp hc with ⟨a, _, ha⟩
      exact ha.symm
    · intro s hs
      exact hs
  · intro hz
    rw [doPrestige, if_neg (by simp [hz])]

/-- Claim C1 witness: the positive branch at `money = 2,000,000`
(potential `1`) and the no-op branch at the fresh engine. -/
theorem doPrestige_spec_witness :
    (doPrestige { baseEngine with money := 2000000 }).money = 0 ∧
    doPrestige baseEngine = baseEngine :=
  ⟨((doPrestige_spec _).1
      (by rw [potential_of_money_2M rfl]; norm_num)).2.1,
   (doPrestige_spec baseEngine).2
      (potential_of_money_lt (by rw [baseEngine_money]; norm_num))⟩

/-- Claim C9: `click()` increments `totalClicks` by one and credits
exactly `1 + cachedRate * 0.05` to both `money` and `totalEarnings`,
where `cachedRate` is the stored `globalIncomePerSec` — `click` does not
recompute the rate, and leaves the cached value untouched. -/
theorem click_spec (g : GameEngine) :
    (click g).totalClicks = g.totalClicks + 1 ∧
    (click g).money = g.money + (1 + g.globalIncomePerSec * 0.05) ∧
    (click g).totalEarnings = g.totalEarnings + (1 + g.globalIncomePerSec * 0.05) ∧
    (click g).globalIncomePerSec = g.globalIncomePerSec :=
  ⟨rfl, rfl, rfl, rfl⟩

/-- Claim C10 (failing input): the C++ constructor leaves
`globalIncomePerSec` uninitialized, and `click()` reads it. If the first
public operation on a freshly constructed engine is `click()` and the
indeterminate value happens to be `-100`, money becomes
`0 + (1 + (-100) * 0.05) = -4 < 0`, violating the never-negative-money
invariant. -/
theorem fresh_click_money_negative :
    (click (mkEngine (-100))).money = -4 ∧ (click (mkEngine (-100))).money < 0 := by
  have h : (click (mkEngine (-100))).money = -4 := by
    show (0 : ℚ) + (1 + (-100) * 0.05) = -4
    norm_num
  exact ⟨h, by rw [h]; norm_num⟩

/-- Claim C8: `update(deltaTime)` first recomputes the income rate (the
post-state carries the freshly computed `globalIncomePerSec`), then, if
that recomputed rate is positive, adds exactly `rate * deltaTime` to
`money` and `totalEarnings` (linear accrual, no bound on `deltaTime`);
if the recomputed rate is not positive, `money` is unchanged. -/
theorem update_spec (g : GameEngine) (dt : ℚ) (hdt : 0 ≤ dt) :
    (update g dt).globalIncomePerSec = (calculateIncomePerSec g).globalIncomePerSec ∧
    (0 < (calculateIncomePerSec g).globalIncomePerSec →
       (update g dt).money =
         g.money + (calculateIncomePerSec g).globalIncomePerSec * dt ∧
       (update g dt).totalEarnings =
         g.totalEarnings + (calculateIncomePerSec g).globalIncomePerSec * dt) ∧
    ((calculateIncomePerSec g).globalIncomePerSec ≤ 0 →
       (update g dt).money = g.money) := by
  by_cases h : 0 < (calculateIncomePerSec g).globalIncomePerSec
  · have hu : update g dt =
        addMoney (calculateIncomePerSec g) ((calculateIncomePerSec g).globalIncomePerSec * dt) := by
      simp only [update]
      rw [if_pos h]
    rw [hu]
    exact ⟨rfl, fun _ => ⟨rfl, rfl⟩, fun hle => absurd h (not_lt.mpr hle)⟩
  · have hu : update g dt = calculateIncomePerSec g := by
      simp only [update]
      rw [if_neg h]
    rw [hu]
    exact ⟨rfl, fun hpos => absurd hpos h, fun _ => rfl⟩

/-- A concrete state for exercising income accrual: one Data Miner and
nothing else. -/
def minerEngine : GameEngine :=
  { baseEngine with buildingCounts := [1, 0, 0, 0, 0, 0, 0] }

lemma minerEngine_rate : (calculateIncomePerSec minerEngine).globalIncomePerSec = 1 := by
  show (incomeSum getBuildings minerEngine.buildingCounts) * minerEngine.incomeMultiplier = 1
  norm_num [incomeSum, getBuildings, minerEngine, baseEngine, mkEngine]

/-- Claim C8 witness: `update` on the one-Data-Miner state with
`deltaTime = 2` credits `rate * 2` to money. -/
theorem update_spec_witness :
    (update minerEngine 2).money =
      minerEngine.money + (calculateIncomePerSec minerEngine).globalIncomePerSec * 2 :=
  (((update_spec minerEngine 2 (by norm_num)).2.1
      (by rw [minerEngine_rate]; norm_num)).1)

/-- The guarded catalog walk of `calculateIncomePerSec`, re-expressed as
the indexed sum of the spec `Σ i, catalog[i].income * buildingCounts[i]` when
`buildingCounts` covers the whole catalog. -/
lemma incomeSum_eq_sum_range :
    ∀ (bs : List BuildingDef) (cs : List Int), cs.length = bs.length →
      incomeSum bs cs =
        ((List.range bs.length).map
          (fun i => ((bs.get? i).getD default).income *
            (((cs.get? i).getD 0 : ℤ) : ℚ))).sum := by
  intro bs
  induction bs with
  | nil =>
    intro cs h
    cases cs with
    | nil => rfl
    | cons c cs' => simp at h
  | cons b bs ih =>
    intro cs h
    cases cs with
    | nil => simp at h
    | cons c cs' =>
      have hlen : cs'.length = bs.length := by simpa using h
      have htail := ih cs' hlen
      simp only [incomeSum, List.length_cons, List.range_succ_eq_map, List.map_cons,
        List.map_map, List.sum_cons, List.get?_cons_zero, Option.getD_some]
      rw [htail]
      congr 1

/-- Claim C7: `calculateIncomePerSec()` sets the income rate to the sum
over all buildings of `catalog[i].income * buildingCounts[i]`, times
`1.05` exactly when the skill `"auto_click"` is owned, times
`incomeMultiplier`; in particular, with `"auto_click"` owned, base income
summing to `100`, and multiplier `1`, the rate is `105`. -/
theorem incomePerSec_spec :
    (∀ g : GameEngine, g.buildingCounts.length = getBuildings.length →
       (calculateIncomePerSec g).globalIncomePerSec =
         ((List.range getBuildings.length).map
             (fun i => ((getBuildings.get? i).getD default).income *
               (((g.buildingCounts.get? i).getD 0 : ℤ) : ℚ))).sum *
           (if hasSkill g "auto_click" then (1.05 : ℚ) else 1) *
           g.incomeMultiplier) ∧
    (∀ g : GameEngine, hasSkill g "auto_click" = true →
       incomeSum getBuildings g.buildingCounts = 100 → g.incomeMultiplier = 1 →
       (calculateIncomePerSec g).globalIncomePerSec = 105) := by
  constructor
  · intro g hlen
    show (if hasSkill g "auto_click"
            then incomeSum getBuildings g.buildingCounts +
                 incomeSum getBuildings g.buildingCounts * AUTO_CLICK_BONUS
            else incomeSum getBuildings g.buildingCounts) * g.incomeMultiplier = _
    rw [incomeSum_eq_sum_range getBuildings g.buildingCounts hlen]
    split_ifs with hs
    · rw [AUTO_CLICK_BONUS]
      ring
    · ring
  · intro g hs h100 hm
    show (if hasSkill g "auto_click"
            then incomeSum getBuildings g.buildingCounts +
                 incomeSum getBuildings g.buildingCounts * AUTO_CLICK_BONUS
            else incomeSum getBuildings g.buildingCounts) * g.incomeMultiplier = 105
    rw [if_pos hs, h100, hm, AUTO_CLICK_BONUS]
    norm_num

/-- A concrete state for the income scenario: a hundred Data Miners and
the `"auto_click"` skill. -/
def autoClickEngine : GameEngine :=
  { baseEngine with
     buildingCounts := [100, 0, 0, 0, 0, 0, 0]
     ownedSkills := fun s => s == "auto_click" }

/-- Claim C7 witness: the scenario state (base income 100, `"auto_click"`
owned, multiplier 1) yields a rate of exactly `105`. -/
theorem incomePerSec_spec_witness :
    (calculateIncomePerSec autoClickEngine).globalIncomePerSec = 105 :=
  incomePerSec_spec.2 autoClickEngine rfl
    (by norm_num [incomeSum, getBuildings, autoClickEngine, baseEngine, mkEngine]) rfl

/-- Claim C3: for every valid building id, `getBuildingCost(id)` is
`⌊baseCost * 1.15^buildingCounts[id] * d⌋` with `d = 0.9` when the skill
`"cheaper"` is owned and `d = 1` otherwise; in particular building 0
(base cost 15) with one unit owned and no skills costs `⌊15 * 1.15⌋ = 17`. -/
theorem buildingCost_formula :
    (∀ (g : GameEngine) (id : Nat) (h1 : id < getBuildings.length)
        (h2 : id < g.buildingCounts.length),
       getBuildingCost g id =
         (⌊(getBuildings.get ⟨id, h1⟩).baseCost *
             (1.15 : ℚ) ^ (g.buildingCounts.get ⟨id, h2⟩) *
             (if hasSkill g "cheaper" then (0.9 : ℚ) else 1)⌋ : ℚ)) ∧
    (∀ g : GameEngine, g.buildingCounts = [1, 0, 0, 0, 0, 0, 0] →
       hasSkill g "cheaper" = false → getBuildingCost g 0 = 17) := by
  constructor
  · intro g id h1 h2
    rw [getBuildingCost, List.get?_eq_get h1, List.get?_eq_get h2]
    rw [PRICE_GROWTH_RATE, DISCOUNT_RATE, Option.getD_some, Option.getD_some]
  · intro g hc hs
    rw [getBuildingCost, hc, hs]
    show ((⌊((getBuildings.get? 0).getD default).baseCost *
        PRICE_GROWTH_RATE ^ (([(1 : ℤ), 0, 0, 0, 0, 0, 0].get? 0).getD 0) * 1⌋ : ℤ) : ℚ) = 17
    norm_num [getBuildings, PRICE_GROWTH_RATE]

/-- Claim C3 witness: the general formula at building 0 of the
one-Data-Miner state, and the concrete cost 17 there. -/
theorem buildingCost_formula_witness :
    getBuildingCost minerEngine 0 =
      (⌊(getBuildings.get ⟨0, by norm_num [getBuildings]⟩).baseCost *
          (1.15 : ℚ) ^ (minerEngine.buildingCounts.get ⟨0, by norm_num [minerEngine, baseEngine, mkEngine]⟩) *
          (if hasSkill minerEngine "cheaper" then (0.9 : ℚ) else 1)⌋ : ℚ) ∧
    getBuildingCost minerEngine 0 = 17 :=
  ⟨buildingCost_formula.1 minerEngine 0 (by norm_num [getBuildings])
      (by norm_num [minerEngine, baseEngine, mkEngine]),
   buildingCost_formula.2 minerEngine rfl rfl⟩

lemma baseCost_ge_15 : ∀ b ∈ getBuildings, (15 : ℚ) ≤ b.baseCost := by
  intro b hb
  fin_cases hb <;> norm_num [getBuildings]

lemma one_le_growth_pow (n : ℕ) : (1 : ℚ) ≤ PRICE_GROWTH_RATE ^ n := by
  induction n with
  | zero => norm_num
  | succ n ih =>
    rw [pow_succ, PRICE_GROWTH_RATE] at *
    nlinarith [ih]

/-- One step of the cost curve still climbs after flooring: for
`x ≥ 13.5` (the discounted base price of every building is at least
`15 * 0.9`), `⌊x⌋ < ⌊x * 1.15⌋`. -/
lemma floor_lt_floor_mul_growth {x : ℚ} (hx : (27 / 2 : ℚ) ≤ x) :
    ⌊x⌋ < ⌊x * PRICE_GROWTH_RATE⌋ := by
  have h1 : x + 1 ≤ x * PRICE_GROWTH_RATE := by
    rw [PRICE_GROWTH_RATE]
    nlinarith [hx]
  calc ⌊x⌋ < ⌊x⌋ + 1 := lt_add_one _
    _ = ⌊x + 1⌋ := (Int.floor_add_one x).symm
    _ ≤ ⌊x * PRICE_GROWTH_RATE⌋ := Int.floor_le_floor h1

/-- Claim C4: for every building of the supplied catalog and every
skill-ownership state, `getBuildingCost` is strictly increasing in the
owned count: the cost at count `n + 1` strictly exceeds the cost at
count `n`, the flooring notwithstanding. -/
theorem buildingCost_strictMono :
    ∀ (g₁ g₂ : GameEngine) (id : Nat), id < getBuildings.length →
      ∀ n : ℕ,
        g₁.buildingCounts.get? id = some (n : ℤ) →
        g₂.buildingCounts.get? id = some ((n : ℤ) + 1) →
        g₁.ownedSkills = g₂.ownedSkills →
        getBuildingCost g₁ id < getBuildingCost g₂ id := by
  intro g₁ g₂ id hid n h1 h2 hsk
  have hskill : hasSkill g₂ "cheaper" = hasSkill g₁ "cheaper" := by
    rw [hasSkill, hasSkill, hsk]
  rw [getBuildingCost, getBuildingCost, h1, h2, Option.getD_some, Option.getD_some, hskill]
  set b : BuildingDef := (getBuildings.get? id).getD default with hb
  have hmem : b ∈ getBuildings := by
    rw [hb, List.get?_eq_get hid, Option.getD_some]
    exact List.get_mem _ _ _
  have hbc : (15 : ℚ) ≤ b.baseCost := baseCost_ge_15 b hmem
  set d : ℚ := if hasSkill g₁ "cheaper" then DISCOUNT_RATE else 1 with hd
  have hd9 : (9 / 10 : ℚ) ≤ d := by
    rw [hd]
    split_ifs
    · norm_num [DISCOUNT_RATE]
    · norm_num
  have hd0 : (0 : ℚ) ≤ d := le_trans (by norm_num) hd9
  have hgrow : (1 : ℚ) ≤ PRICE_GROWTH_RATE ^ (n : ℤ) := by
    rw [zpow_natCast]
    exact one_le_growth_pow n
  have hbp : (15 : ℚ) ≤ b.baseCost * PRICE_GROWTH_RATE ^ (n : ℤ) :=
    le_trans hbc (le_mul_of_one_le_right (le_trans (by norm_num) hbc) hgrow)
  have hbpd : 15 * d ≤ b.baseCost * PRICE_GROWTH_RATE ^ (n : ℤ) * d :=
    mul_le_mul_of_nonneg_right hbp hd0
  have hx : (27 / 2 : ℚ) ≤ b.baseCost * PRICE_GROWTH_RATE ^ (n : ℤ) * d := by
    nlinarith [hd9, hbpd]
  have hsucc : b.baseCost * PRICE_GROWTH_RATE ^ ((n : ℤ) + 1) * d =
      b.baseCost * PRICE_GROWTH_RATE ^ (n : ℤ) * d * PRICE_GROWTH_RATE := by
    rw [zpow_add_one₀ (by rw [PRICE_GROWTH_RATE]; norm_num)]
    ring
  rw [hsucc]
  exact_mod_cast floor_lt_floor_mul_growth hx

/-- Claim C4 witness: building 0 at counts 0 and 1 with no skills:
cost 15 < cost 17. -/
theorem buildingCost_strictMono_witness :
    getBuildingCost baseEngine 0 < getBuildingCost minerEngine 0 :=
  buildingCost_strictMono baseEngine minerEngine 0 (by norm_num [getBuildings]) 0
    (by rw [(rfl : baseEngine.buildingCounts = List.replicate 7 0)]; rfl)
    (by rw [(rfl : minerEngine.buildingCounts = [1, 0, 0, 0, 0, 0, 0])]; rfl)
    rfl

/-- Claim C5: `buyBuilding(id)` returns `false` with no state change when
`id` is out of `[0, buildingCount)` or `money` is below the cost;
otherwise it deducts exactly the cost, increments `buildingCounts[id]` by
exactly one and returns `true`; it never leaves `money` negative when
`money` was non-negative, and a failed purchase changes nothing. -/
theorem buyBuilding_spec (g : GameEngine) (id : ℤ)
    (hlen : g.buildingCounts.length = getBuildings.length) :
    ((id < 0 ∨ (getBuildings.length : ℤ) ≤ id) → buyBuilding g id = (false, g)) ∧
    (0 ≤ id → id < (getBuildings.length : ℤ) →
       g.money < getBuildingCost g id.toNat → buyBuilding g id = (false, g)) ∧
    (0 ≤ id → id < (getBuildings.length : ℤ) →
       getBuildingCost g id.toNat ≤ g.money →
       buyBuilding g id =
         (true, { g with
                   money := g.money - getBuildingCost g id.toNat
                   buildingCounts := g.buildingCounts.set id.toNat
                     ((g.buildingCounts.get? id.toNat).getD 0 + 1) }) ∧
       (buyBuilding g id).2.buildingCounts.get? id.toNat =
         some ((g.buildingCounts.get? id.toNat).getD 0 + 1)) ∧
    (0 ≤ g.money → 0 ≤ (buyBuilding g id).2.money) := by
  by_cases hr : id < 0 ∨ (getBuildings.length : ℤ) ≤ id
  · have hb : buyBuilding g id = (false, g) := by
      rw [buyBuilding, if_pos hr]
    refine ⟨fun _ => hb, fun _ _ _ => hb, fun h0 hlt _ => absurd hr (by omega), fun hm => ?_⟩
    rw [hb]
    exact hm
  · by_cases hc : getBuildingCost g id.toNat ≤ g.money
    · have hb : buyBuilding g id =
          (true, { g with
                    money := g.money - getBuildingCost g id.toNat
                    buildingCounts := g.buildingCounts.set id.toNat
                      ((g.buildingCounts.get? id.toNat).getD 0 + 1) }) := by
        simp only [buyBuilding]
        rw [if_neg hr, if_pos hc]
      have hidlt : id.toNat < g.buildingCounts.length := by
        rw [hlen]
        omega
      refine ⟨fun h => absurd h hr, fun _ _ hlt => absurd hc (not_le.mpr hlt),
              fun _ _ _ => ⟨hb, ?_⟩, fun _ => ?_⟩
      · rw [hb]
        exact List.get?_set_eq_of_lt _ hidlt
      · rw [hb]
        show (0 : ℚ) ≤ g.money - getBuildingCost g id.toNat
        linarith [hc]
    · have hb : buyBuilding g id = (false, g) := by
        simp only [buyBuilding]
        rw [if_neg hr, if_neg hc]
      refine ⟨fun h => absurd h hr, fun _ _ _ => hb, fun _ _ hcle => absurd hcle hc,
              fun hm => ?_⟩
      rw [hb]
      exact hm

lemma cost_fresh_zero :
    getBuildingCost { baseEngine with money := 15 } (Int.toNat 0) = 15 := by
  norm_num [getBuildingCost, baseEngine, mkEngine, getBuildings, hasSkill,
    PRICE_GROWTH_RATE, DISCOUNT_RATE, List.replicate]

/-- Claim C5 witness: with exactly 15 money, buying building 0 succeeds
and leaves `money = 15 - 15`; buying the out-of-range id `7` fails. -/
theorem buyBuilding_spec_witness :
    buyBuilding { baseEngine with money := 15 } 0 =
      (true, { { baseEngine with money := 15 } with
                money := (15 : ℚ) - getBuildingCost { baseEngine with money := 15 } 0
                buildingCounts :=
                  ({ baseEngine with money := 15 } : GameEngine).buildingCounts.set 0
                    ((({ baseEngine with money := 15 } : GameEngine).buildingCounts.get? 0).getD 0 + 1) }) ∧
    buyBuilding { baseEngine with money := 15 } 7 =
      (false, { baseEngine with money := 15 }) := by
  constructor
  · exact ((buyBuilding_spec _ 0 rfl).2.2.1 (by norm_num) (by norm_num [getBuildings])
      (by rw [cost_fresh_zero])).1
  · exact (buyBuilding_spec _ 7 rfl).1 (Or.inr (by norm_num [getBuildings]))

/-- The skill scan buys nothing when every catalog entry with the wanted
id costs more `neuralData` than is available (in particular when no entry
has that id). -/
lemma buySkillAux_fail {g : GameEngine} {sid : String} :
    ∀ l : List SkillDef, (∀ sk ∈ l, sk.id = sid → g.neuralData < sk.cost) →
      buySkillAux g sid l = (false, g) := by
  intro l
  induction l with
  | nil => intro _; rfl
  | cons hd tl ih =>
    intro h
    by_cases hid : hd.id = sid
    · have hcost := h hd (List.mem_cons_self hd tl) hid
      rw [buySkillAux, if_pos hid, if_neg (not_le.mpr hcost)]
      exact ih fun sk hsk => h sk (List.mem_cons_of_mem hd hsk)
    · rw [buySkillAux, if_neg hid]
      exact ih fun sk hsk => h sk (List.mem_cons_of_mem hd hsk)

/-- The skill scan buys the first catalog entry with the wanted id when it
is affordable. -/
lemma buySkillAux_found {g : GameEngine} {sid : String} :
    ∀ (l : List SkillDef) (sk : SkillDef),
      l.find? (fun s => s.id == sid) = some sk → sk.cost ≤ g.neuralData →
      buySkillAux g sid l =
        (true, { g with
                  neuralData := g.neuralData - sk.cost
                  ownedSkills := fun s => if s = sid then true else g.ownedSkills s }) := by
  intro l
  induction l with
  | nil => intro sk hf; simp [List.find?] at hf
  | cons hd tl ih =>
    intro sk hf hcost
    by_cases hid : hd.id = sid
    · rw [List.find?_cons_of_pos tl (by simpa using hid)] at hf
      have hsk : hd = sk := by simpa using hf
      subst hsk
      rw [buySkillAux, if_pos hid, if_pos hcost]
    · rw [List.find?_cons_of_neg tl (by simpa using hid)] at hf
      rw [buySkillAux, if_neg hid]
      exact ih sk hf hcost

/-- Claim C6: `buySkill` returns `false` — leaving `neuralData` and
ownership unchanged — when the skill is already owned, when no catalog
skill carries the id, or when every matching catalog skill costs more
than the available `neuralData`; on success it deducts exactly the cost
of the found skill, marks the skill owned, and returns `true`, and an immediate
second purchase of the same id returns `false` without deducting again. -/
theorem buySkill_spec (g : GameEngine) (sid : String) :
    (g.ownedSkills sid = true → buySkill g sid = (false, g)) ∧
    ((∀ sk ∈ getSkills, sk.id ≠ sid) → buySkill g sid = (false, g)) ∧
    ((∀ sk ∈ getSkills, sk.id = sid → g.neuralData < sk.cost) →
       buySkill g sid = (false, g)) ∧
    (∀ sk : SkillDef, getSkills.find? (fun s => s.id == sid) = some sk →
       sk.cost ≤ g.neuralData → g.ownedSkills sid = false →
       buySkill g sid =
         (true, { g with
                   neuralData := g.neuralData - sk.cost
                   ownedSkills := fun s => if s = sid then true else g.ownedSkills s }) ∧
       hasSkill (buySkill g sid).2 sid = true ∧
       buySkill (buySkill g sid).2 sid = (false, (buySkill g sid).2)) := by
  refine ⟨?_, ?_, ?_, ?_⟩
  · intro h
    rw [buySkill, if_pos h]
  · intro h
    by_cases ho : g.ownedSkills sid = true
    · rw [buySkill, if_pos ho]
    · rw [buySkill, if_neg ho]
      exact buySkillAux_fail getSkills fun sk hsk hid => absurd hid (h sk hsk)
  · intro h
    by_cases ho : g.ownedSkills sid = true
    · rw [buySkill, if_pos ho]
    · rw [buySkill, if_neg ho]
      exact buySkillAux_fail getSkills h
  · intro sk hf hcost ho
    set g' : GameEngine :=
      { g with
         neuralData := g.neuralData - sk.cost
         ownedSkills := fun s => if s = sid then true else g.ownedSkills s } with hg'
    have hbuy : buySkill g sid = (true, g') := by
      rw [buySkill, if_neg (by rw [ho]; exact Bool.false_ne_true)]
      exact buySkillAux_found getSkills sk hf hcost
    have hown : g'.ownedSkills sid = true := by
      rw [hg']
      show (if sid = sid then true else g.ownedSkills sid) = true
      simp
    refine ⟨hbuy, ?_, ?_⟩
    · rw [hbuy]
      show g'.ownedSkills sid = true
      exact hown
    · rw [hbuy]
      show buySkill g' sid = (false, g')
      rw [buySkill, if_pos hown]

/-- Claim C6 witness: with 5 Neural Data, buying `"auto_click"` succeeds,
marks it owned, and a second attempt returns `false`; buying the unknown
id `"nope"` and the unaffordable `"cheaper"` both fail. -/
theorem buySkill_spec_witness :
    hasSkill (buySkill { baseEngine with neuralData := 5 } "auto_click").2 "auto_click" = true ∧
    buySkill { baseEngine with neuralData := 5 } "nope" =
      (false, { baseEngine with neuralData := 5 }) ∧
    buySkill { baseEngine with neuralData := 5 } "cheaper" =
      (false, { baseEngine with neuralData := 5 }) := by
  refine ⟨((buySkill_spec _ "auto_click").2.2.2 ⟨"auto_click", "Auto-Clicker", 5,
      "Automatic clicks 1x/sec"⟩ rfl (by norm_num) rfl).2.1, ?_, ?_⟩
  · exact (buySkill_spec _ "nope").2.1 (by decide)
  · exact (buySkill_spec _ "cheaper").2.2.1 (by decide)

end NeonTycoon
